import Mathlib

/-!
# Verification of the iptm-mqtt-react live-telemetry dashboard

Shallow embedding of the browser-side dashboard component
(`src/App.tsx`, `src/components/LineChart.tsx`, and the write variant in
`src/unnamed/part_001`).  JavaScript numbers are modelled as rationals,
JSON values as an inductive type, and the React `useState` variables as
fields of an explicit `AppState` record.  Each event handler of the
component becomes a state-transition function.
-/

namespace IptmMqtt

/-- A JSON value, as produced by `JSON.parse`.  Numbers are modelled as
rationals. -/
inductive Json where
  | null : Json
  | bool : Bool → Json
  | num : ℚ → Json
  | str : String → Json
  | arr : List Json → Json
  | obj : List (String × Json) → Json

/-- An inbound MQTT payload after `message.toString()`: either text that
`JSON.parse` decodes to a JSON value, or malformed text on which
`JSON.parse` throws. -/
inductive Payload where
  | json : Json → Payload
  | malformed : Payload

/-- `{ timestamp: string; temperature: number; humidity: number }`
(element type of the `historicalData` state). -/
structure HistoricalReading where
  timestamp : String
  temperature : ℚ
  humidity : ℚ
deriving Repr, DecidableEq

/-- A JavaScript `Date` restricted to the accessors the component uses:
`getDate()` (day of month, 1-based), `getMonth()` (0-based month) and
`getFullYear()`. -/
structure SimpleDate where
  getDate : Nat
  getMonth : Nat
  getFullYear : Nat
deriving Repr, DecidableEq

/-- The six `useState` variables of the `App` component.
`realTimeData` holds whatever `JSON.parse` returned (the code performs
no shape validation), so its runtime type is an arbitrary JSON value. -/
structure AppState where
  realTimeData : Option Json
  historicalData : List HistoricalReading
  isLoading : Bool
  mqttConnected : Bool
  selectedDate : SimpleDate
  lastUpdate : Option String

/-- `const MQTT_TOPIC = "sensor/data"`. -/
def MQTT_TOPIC : String := "sensor/data"

/-- Does a JSON value match the `Reading` shape, i.e. is it an object
with numeric `temperature` and `humidity` fields? -/
def isReadingShape : Json → Bool
  | .obj fields =>
      ((fields.lookup "temperature").map fun v =>
        match v with | .num _ => true | _ => false).getD false
      &&
      ((fields.lookup "humidity").map fun v =>
        match v with | .num _ => true | _ => false).getD false
  | _ => false

/-- The `client.on("message", ...)` handler of `App.tsx` (lines 60-72):
if the topic matches, try `JSON.parse`; on success set `realTimeData`
to the decoded value and `lastUpdate` to the current time string; on a
parse error only log (no state change).  The function is total: the
`try`/`catch` means no exception escapes the handler. -/
def onMessage (s : AppState) (topic : String) (payload : Payload)
    (now : String) : AppState :=
  if topic = MQTT_TOPIC then
    match payload with
    | .json j => { s with realTimeData := some j, lastUpdate := some now }
    | .malformed => s
  else s

/-- The `client.on("connect", ...)` handler: sets `mqttConnected` to
true (the `client.subscribe` call is an external effect on the broker,
not on component state). -/
def onConnect (s : AppState) : AppState :=
  { s with mqttConnected := true }

/-- The `client.on("error", ...)` handler (lines 74-77): logs and sets
`mqttConnected` to false. -/
def onError (s : AppState) : AppState :=
  { s with mqttConnected := false }

/-- `fetchData` before the request settles: `setIsLoading(true)`. -/
def fetchStart (s : AppState) : AppState :=
  { s with isLoading := true }

/-- The success continuation of the historical fetch:
`setHistoricalData(data); setIsLoading(false)`. -/
def fetchSuccess (s : AppState) (data : List HistoricalReading) : AppState :=
  { s with historicalData := data, isLoading := false }

/-- The `.catch` branch of the historical fetch: logs and
`setIsLoading(false)`; the historical series is not touched. -/
def fetchFailure (s : AppState) : AppState :=
  { s with isLoading := false }

/-- `padStart(2, "0")`: left-pad with zeros to length 2. -/
def padStart2 (s : String) : String :=
  if s.length ≥ 2 then s
  else String.mk (List.replicate (2 - s.length) '0') ++ s

/-- `slice(-2)` on a string: the last two characters (the whole string
when it is shorter than two characters). -/
def sliceLast2 (s : String) : String :=
  s.drop (s.length - 2)

/-- The date formatting of `fetchData` (lines 25-29):
`getDate().padStart(2,"0") ++ "_" ++ (getMonth()+1).padStart(2,"0")
++ "_" ++ getFullYear().toString().slice(-2)`. -/
def formattedDate (d : SimpleDate) : String :=
  padStart2 (toString d.getDate) ++ "_" ++
  padStart2 (toString (d.getMonth + 1)) ++ "_" ++
  sliceLast2 (toString d.getFullYear)

/-- Modelled from the spec: "two-digit zero-padded day, two-digit
zero-padded month, last two digits of the year" — the canonical
two-digit zero-padded decimal rendering of `n % 100`. -/
def twoDigit (n : Nat) : String :=
  String.mk [Nat.digitChar (n / 10 % 10), Nat.digitChar (n % 10)]

/-- `Math.max(...l)` over a non-empty list (a left fold of `max` over
the spread arguments; the value on the empty list is never used because
the render guard requires `historicalData.length > 0`). -/
def listMax : List ℚ → ℚ
  | [] => 0
  | x :: xs => xs.foldl max x

/-- `Math.min(...l)` over a non-empty list. -/
def listMin : List ℚ → ℚ
  | [] => 0
  | x :: xs => xs.foldl min x

/-- `historicalData.reduce((sum, d) => sum + f d, 0)`. -/
def reduceSum (f : HistoricalReading → ℚ) (hd : List HistoricalReading) : ℚ :=
  hd.foldl (fun sum d => sum + f d) 0

/-- The values shown in the Daily Summary section. -/
structure Summary where
  highestTemp : ℚ
  lowestTemp : ℚ
  avgTemp : ℚ
  highestHum : ℚ
  lowestHum : ℚ
  avgHum : ℚ
deriving Repr, DecidableEq

/-- The Daily Summary block of `App.tsx` (lines 142-212): rendered, and
its statistics computed, only under the guard
`historicalData.length > 0`; otherwise nothing is rendered (`none`). -/
def dailySummary (hd : List HistoricalReading) : Option Summary :=
  if hd.length > 0 then
    some
      { highestTemp := listMax (hd.map (·.temperature))
        lowestTemp := listMin (hd.map (·.temperature))
        avgTemp := reduceSum (·.temperature) hd / hd.length
        highestHum := listMax (hd.map (·.humidity))
        lowestHum := listMin (hd.map (·.humidity))
        avgHum := reduceSum (·.humidity) hd / hd.length }
  else none

/-- `LineChart.tsx` lines 40-42:
`[...historicalData].sort((a, b) => time a - time b)` — a stable sort
ascending by parsed timestamp.  `parse` models
`(ts : string) => new Date(ts).getTime()`, an external collaborator. -/
def sortedData (parse : String → Int) (hd : List HistoricalReading) :
    List HistoricalReading :=
  hd.mergeSort fun a b => decide (parse a.timestamp ≤ parse b.timestamp)

/-- The `client.on("message", ...)` handler of the write variant
(`src/unnamed/part_001`, lines 77-99): on successful decode it updates
`realTimeData`/`lastUpdate` and issues a `POST /api/sensor` whose body
is the decoded value; the second component is that request body
(`none` when no request is issued). -/
def onMessageWrite (s : AppState) (topic : String) (payload : Payload)
    (now : String) : AppState × Option Json :=
  if topic = MQTT_TOPIC then
    match payload with
    | .json j =>
        ({ s with realTimeData := some j, lastUpdate := some now }, some j)
    | .malformed => (s, none)
  else (s, none)

/-- The success continuation of the fire-and-forget write:
`setHistoricalData((prevData) => [...prevData, savedData])`. -/
def onWriteSuccess (s : AppState) (saved : HistoricalReading) : AppState :=
  { s with historicalData := s.historicalData ++ [saved] }

/-- The `.catch` of the fire-and-forget write: logs only; no state
change. -/
def onWriteFailure (s : AppState) : AppState := s

/-- Processing a sequence of inbound messages, each a decoded JSON
value paired with its receipt time. -/
def processMessages (s : AppState) (msgs : List (Json × String)) : AppState :=
  msgs.foldl (fun st p => onMessage st MQTT_TOPIC (.json p.1) p.2) s

/-- The initial state of the component: all six `useState` initial
values (`null`, `[]`, `false`, `false`, `new Date()`, `null`). -/
def initialState (d : SimpleDate) : AppState :=
  { realTimeData := none
    historicalData := []
    isLoading := false
    mqttConnected := false
    selectedDate := d
    lastUpdate := none }

/-- A JSON object of the Reading shape with the given temperature and
humidity. -/
def readingJson (t h : ℚ) : Json :=
  .obj [("temperature", .num t), ("humidity", .num h)]

/-! ## Helper lemmas -/

lemma processMessages_cons (s : AppState) (p : Json × String)
    (rest : List (Json × String)) :
    processMessages s (p :: rest) =
      processMessages (onMessage s MQTT_TOPIC (.json p.1) p.2) rest := rfl

lemma onMessage_json_topic (s : AppState) (j : Json) (now : String) :
    onMessage s MQTT_TOPIC (.json j) now =
      { s with realTimeData := some j, lastUpdate := some now } := by
  simp [onMessage]

lemma le_foldl_max (l : List ℚ) (a : ℚ) : a ≤ l.foldl max a := by
  induction l generalizing a with
  | nil => exact le_refl a
  | cons x xs ih => exact le_trans (le_max_left a x) (ih (max a x))

lemma mem_le_foldl_max (l : List ℚ) (a x : ℚ) (hx : x ∈ l) :
    x ≤ l.foldl max a := by
  induction l generalizing a with
  | nil => cases hx
  | cons y ys ih =>
    rcases List.mem_cons.mp hx with h | h
    · subst h
      exact le_trans (le_max_right a x) (le_foldl_max ys _)
    · exact ih _ h

lemma mem_le_listMax (l : List ℚ) (x : ℚ) (hx : x ∈ l) : x ≤ listMax l := by
  cases l with
  | nil => cases hx
  | cons y ys =>
    rcases List.mem_cons.mp hx with h | h
    · subst h
      exact le_foldl_max ys x
    · exact mem_le_foldl_max ys y x h

lemma foldl_min_le (l : List ℚ) (a : ℚ) : l.foldl min a ≤ a := by
  induction l generalizing a with
  | nil => exact le_refl a
  | cons x xs ih => exact le_trans (ih (min a x)) (min_le_left a x)

lemma foldl_min_le_mem (l : List ℚ) (a x : ℚ) (hx : x ∈ l) :
    l.foldl min a ≤ x := by
  induction l generalizing a with
  | nil => cases hx
  | cons y ys ih =>
    rcases List.mem_cons.mp hx with h | h
    · subst h
      exact le_trans (foldl_min_le ys _) (min_le_right a x)
    · exact ih _ h

lemma listMin_le_mem (l : List ℚ) (x : ℚ) (hx : x ∈ l) : listMin l ≤ x := by
  cases l with
  | nil => cases hx
  | cons y ys =>
    rcases List.mem_cons.mp hx with h | h
    · subst h
      exact foldl_min_le ys x
    · exact foldl_min_le_mem ys y x h

lemma reduceSum_eq_sum (f : HistoricalReading → ℚ)
    (hd : List HistoricalReading) : reduceSum f hd = (hd.map f).sum := by
  rw [List.sum_eq_foldl, List.foldl_map]
  rfl

lemma mean_le_listMax (l : List ℚ) (h : l ≠ []) :
    l.sum / l.length ≤ listMax l := by
  have hlen : 0 < (l.length : ℚ) := by
    have := List.length_pos.mpr h
    exact_mod_cast this
  rw [div_le_iff hlen]
  have hsum : l.sum ≤ l.length • listMax l :=
    List.sum_le_card_nsmul l _ (fun x hx => mem_le_listMax l x hx)
  calc l.sum ≤ l.length • listMax l := hsum
    _ = listMax l * l.length := by rw [nsmul_eq_mul]; ring

lemma listMin_le_mean (l : List ℚ) (h : l ≠ []) :
    listMin l ≤ l.sum / l.length := by
  have hlen : 0 < (l.length : ℚ) := by
    have := List.length_pos.mpr h
    exact_mod_cast this
  rw [le_div_iff hlen]
  have hsum : l.length • listMin l ≤ l.sum :=
    List.card_nsmul_le_sum l _ (fun x hx => listMin_le_mem l x hx)
  calc listMin l * l.length = l.length • listMin l := by
        rw [nsmul_eq_mul]; ring
    _ ≤ l.sum := hsum

/-! ## Theorems -/

/-- C2: a malformed payload on the subscribed topic leaves the whole
component state — latest reading, last-update timestamp, connection
flag and all the rest — exactly unchanged.  The handler is a total
function (the parse error is caught), so no exception escapes it. -/
theorem malformed_payload_no_state_change :
    ∀ (s : AppState) (now : String),
      onMessage s MQTT_TOPIC .malformed now = s := by
  intro s now
  simp [onMessage]

/-- C5: the loading flag is set when the historical request is issued
and cleared when it settles; success replaces the historical series
wholesale; failure leaves it unchanged; and no other event handler
(message, connect, error) touches the loading flag while the request
is outstanding. -/
theorem fetch_loading_and_series_lifecycle :
    ∀ (s : AppState) (data : List HistoricalReading) (topic now : String)
      (p : Payload),
      (fetchStart s).isLoading = true ∧
      (fetchStart s).historicalData = s.historicalData ∧
      (fetchSuccess s data).isLoading = false ∧
      (fetchSuccess s data).historicalData = data ∧
      (fetchFailure s).isLoading = false ∧
      (fetchFailure s).historicalData = s.historicalData ∧
      (onMessage s topic p now).isLoading = s.isLoading ∧
      (onConnect s).isLoading = s.isLoading ∧
      (onError s).isLoading = s.isLoading := by
  intro s data topic now p
  refine ⟨rfl, rfl, rfl, rfl, rfl, rfl, ?_, rfl, rfl⟩
  unfold onMessage
  split
  · cases p <;> rfl
  · rfl

/-- C8: after a successful connect the state is Connected; a transport
error then flips it to Disconnected and leaves every other state
variable (latest reading, historical series, loading flag, selected
date, last-update timestamp) untouched. -/
theorem error_after_connect_frame :
    ∀ s : AppState,
      (onConnect s).mqttConnected = true ∧
      (onError (onConnect s)).mqttConnected = false ∧
      (onError (onConnect s)).realTimeData = (onConnect s).realTimeData ∧
      (onError (onConnect s)).historicalData = (onConnect s).historicalData ∧
      (onError (onConnect s)).isLoading = (onConnect s).isLoading ∧
      (onError (onConnect s)).selectedDate = (onConnect s).selectedDate ∧
      (onError (onConnect s)).lastUpdate = (onConnect s).lastUpdate := by
  intro s
  exact ⟨rfl, rfl, rfl, rfl, rfl, rfl, rfl⟩

/-- C9 (write variant): a successful decode issues a write request
carrying exactly the decoded value; write success appends the store's
returned record to the historical series; write failure leaves the
series unchanged; and in either case the live-reading update performed
before the write is not rolled back. -/
theorem write_variant_fire_and_forget :
    ∀ (s : AppState) (j : Json) (now : String) (saved : HistoricalReading),
      (onMessageWrite s MQTT_TOPIC (.json j) now).2 = some j ∧
      (onMessageWrite s MQTT_TOPIC (.json j) now).1.realTimeData = some j ∧
      (onWriteSuccess (onMessageWrite s MQTT_TOPIC (.json j) now).1
          saved).historicalData =
        (onMessageWrite s MQTT_TOPIC (.json j) now).1.historicalData
          ++ [saved] ∧
      (onWriteFailure
          (onMessageWrite s MQTT_TOPIC (.json j) now).1).historicalData =
        (onMessageWrite s MQTT_TOPIC (.json j) now).1.historicalData ∧
      (onWriteSuccess (onMessageWrite s MQTT_TOPIC (.json j) now).1
          saved).realTimeData = some j ∧
      (onWriteFailure
          (onMessageWrite s MQTT_TOPIC (.json j) now).1).realTimeData =
        some j := by
  intro s j now saved
  refine ⟨?_, ?_, ?_, ?_, ?_, ?_⟩ <;> simp [onMessageWrite, onWriteSuccess, onWriteFailure]

/-- C10: the handler performs no shape validation beyond JSON syntax:
the payload `"5"` is valid JSON but does not match the Reading shape,
yet the handler still replaces the latest-reading state with the
decoded value and updates the last-update timestamp. -/
theorem no_shape_validation_beyond_json :
    isReadingShape (Json.num 5) = false ∧
    ∀ (s : AppState) (now : String),
      (onMessage s MQTT_TOPIC (.json (Json.num 5)) now).realTimeData =
          some (Json.num 5) ∧
      (onMessage s MQTT_TOPIC (.json (Json.num 5)) now).lastUpdate =
          some now := by
  refine ⟨rfl, fun s now => ⟨?_, ?_⟩⟩ <;> simp [onMessage]

/-- C1: after any non-empty sequence of valid Reading-shaped JSON
messages on the subscribed topic, the latest-reading state holds
exactly the decoded value of the last message and the last-update
timestamp is that message's receipt time.  The `realTimeData` field is
a single `Option Json`, so at most one live Reading is held at a time;
with a one-element sequence this is exactly "each valid message
replaces the state with its decoded value". -/
theorem latest_reading_is_last_message (s : AppState)
    (msgs : List (Json × String)) (hne : msgs ≠ [])
    (hshape : ∀ p ∈ msgs, isReadingShape p.1 = true) :
    (processMessages s msgs).realTimeData = some (msgs.getLast hne).1 ∧
    (processMessages s msgs).lastUpdate = some (msgs.getLast hne).2 := by
  clear hshape
  induction msgs generalizing s with
  | nil => exact absurd rfl hne
  | cons p rest ih =>
    cases rest with
    | nil =>
      rw [processMessages_cons]
      constructor <;>
        simp [processMessages, onMessage_json_topic, List.getLast_singleton]
    | cons q rest' =>
      rw [processMessages_cons]
      have h2 : q :: rest' ≠ [] := List.cons_ne_nil q rest'
      have := ih (onMessage s MQTT_TOPIC (.json p.1) p.2) h2
      rwa [List.getLast_cons h2]

/-- C1 witness: the spec scenario — `{temp:200,hum:500}` then
`{temp:210,hum:480}` arrive in order; the latest-reading state reflects
only the second, and the timestamp is the second receipt time. -/
theorem latest_reading_is_last_message_witness :
    (processMessages (initialState ⟨1, 0, 2024⟩)
        [(readingJson 200 500, "10:00:01"),
         (readingJson 210 480, "10:00:02")]).realTimeData =
      some (readingJson 210 480) ∧
    (processMessages (initialState ⟨1, 0, 2024⟩)
        [(readingJson 200 500, "10:00:01"),
         (readingJson 210 480, "10:00:02")]).lastUpdate =
      some "10:00:02" := by
  have h := latest_reading_is_last_message (initialState ⟨1, 0, 2024⟩)
    [(readingJson 200 500, "10:00:01"), (readingJson 210 480, "10:00:02")]
    (List.cons_ne_nil _ _) (by decide)
  exact ⟨h.1.trans rfl, h.2.trans rfl⟩

/-- C3: the Daily Summary is rendered (and its statistics computed)
only under the guard `historicalData.length > 0`.  An empty historical
query result leaves the summary unrendered — in particular the
divisions by `historicalData.length` are never evaluated on length 0 —
and any non-empty series does produce a summary. -/
theorem empty_series_no_summary :
    dailySummary [] = none ∧
    (∀ s : AppState,
      dailySummary (fetchSuccess s []).historicalData = none) ∧
    (∀ hd : List HistoricalReading,
      hd ≠ [] → (dailySummary hd).isSome = true) := by
  refine ⟨rfl, fun s => rfl, fun hd h => ?_⟩
  unfold dailySummary
  rw [if_pos (List.length_pos.mpr h)]
  rfl

/-- C3 witness: instances of the guarded behaviour — the empty series
yields no summary, a concrete one-element series yields one. -/
theorem empty_series_no_summary_witness :
    dailySummary [] = none ∧
    (dailySummary [⟨"2024-03-07T10:00:00", 21, 55⟩]).isSome = true :=
  ⟨empty_series_no_summary.1,
   empty_series_no_summary.2.2 [⟨"2024-03-07T10:00:00", 21, 55⟩]
     (List.cons_ne_nil _ _)⟩

/-- C6: for every non-empty historical series, the Daily Summary values
satisfy min(temperature) ≤ mean(temperature) ≤ max(temperature), and
likewise for humidity. -/
theorem summary_min_le_mean_le_max (hd : List HistoricalReading)
    (hne : hd ≠ []) (sm : Summary) (hsm : dailySummary hd = some sm) :
    sm.lowestTemp ≤ sm.avgTemp ∧ sm.avgTemp ≤ sm.highestTemp ∧
    sm.lowestHum ≤ sm.avgHum ∧ sm.avgHum ≤ sm.highestHum := by
  unfold dailySummary at hsm
  rw [if_pos (List.length_pos.mpr hne)] at hsm
  have hsm' := Option.some.inj hsm
  subst hsm'
  have htne : hd.map (·.temperature) ≠ [] := by
    simpa using hne
  have hhne : hd.map (·.humidity) ≠ [] := by
    simpa using hne
  have hlen : ((hd.map (·.temperature)).length : ℚ) = (hd.length : ℚ) := by
    rw [List.length_map]
  have hlen' : ((hd.map (·.humidity)).length : ℚ) = (hd.length : ℚ) := by
    rw [List.length_map]
  refine ⟨?_, ?_, ?_, ?_⟩
  · have := listMin_le_mean (hd.map (·.temperature)) htne
    rwa [hlen, ← reduceSum_eq_sum] at this
  · have := mean_le_listMax (hd.map (·.temperature)) htne
    rwa [hlen, ← reduceSum_eq_sum] at this
  · have := listMin_le_mean (hd.map (·.humidity)) hhne
    rwa [hlen', ← reduceSum_eq_sum] at this
  · have := mean_le_listMax (hd.map (·.humidity)) hhne
    rwa [hlen', ← reduceSum_eq_sum] at this

/-- C6 witness: for the concrete two-element series with temperatures
1 and 3 and humidities 10 and 20 the summary is
`max/min/avg = 3/1/2` and `20/10/15`, and the inequalities hold. -/
theorem summary_min_le_mean_le_max_witness :
    (Summary.mk 3 1 2 20 10 15).lowestTemp ≤
        (Summary.mk 3 1 2 20 10 15).avgTemp ∧
    (Summary.mk 3 1 2 20 10 15).avgTemp ≤
        (Summary.mk 3 1 2 20 10 15).highestTemp ∧
    (Summary.mk 3 1 2 20 10 15).lowestHum ≤
        (Summary.mk 3 1 2 20 10 15).avgHum ∧
    (Summary.mk 3 1 2 20 10 15).avgHum ≤
        (Summary.mk 3 1 2 20 10 15).highestHum :=
  summary_min_le_mean_le_max [⟨"t1", 1, 10⟩, ⟨"t2", 3, 20⟩]
    (List.cons_ne_nil _ _) (Summary.mk 3 1 2 20 10 15)
    (by norm_num [dailySummary, listMax, listMin, reduceSum, Summary.mk.injEq])

/-- C7: the stable sort ascending by parsed timestamp performed by the
presentation model is idempotent: sorting a non-empty series twice
yields the same order as sorting it once. -/
theorem sortedData_idempotent (parse : String → Int)
    (hd : List HistoricalReading) (hne : hd ≠ []) :
    sortedData parse (sortedData parse hd) = sortedData parse hd := by
  unfold sortedData
  apply List.mergeSort_of_sorted
  apply List.sorted_mergeSort
  · intro a b c hab hbc
    simp only [decide_eq_true_eq] at *
    exact le_trans hab hbc
  · intro a b
    rcases le_total (parse a.timestamp) (parse b.timestamp) with h | h
    · simp [h]
    · simp [h]

set_option maxHeartbeats 2000000 in
lemma padStart2_toString_eq_twoDigit :
    ∀ n < 100, padStart2 (toString n) = twoDigit n := by decide

lemma toDigitsCore_append (b fuel n : Nat) (l : List Char) :
    Nat.toDigitsCore b fuel n l = Nat.toDigitsCore b fuel n [] ++ l := by
  induction fuel generalizing n l with
  | zero => rfl
  | succ f ih =>
    unfold Nat.toDigitsCore
    by_cases h : n / b = 0
    · simp [h]
    · simp only [h, if_false]
      rw [ih (n / b) (Nat.digitChar (n % b) :: l),
        ih (n / b) [Nat.digitChar (n % b)]]
      simp

lemma toDigitsCore_fuel (f₁ f₂ n : Nat) (h₁ : n < f₁) (h₂ : n < f₂) :
    Nat.toDigitsCore 10 f₁ n [] = Nat.toDigitsCore 10 f₂ n [] := by
  induction f₁ generalizing f₂ n with
  | zero => omega
  | succ f ih =>
    cases f₂ with
    | zero => omega
    | succ g =>
      unfold Nat.toDigitsCore
      by_cases h : n / 10 = 0
      · simp [h]
      · simp only [h, if_false]
        rw [toDigitsCore_append 10 f (n / 10) _,
          toDigitsCore_append 10 g (n / 10) _]
        congr 1
        exact ih g (n / 10) (by omega) (by omega)

lemma toDigits_lt10 (n : Nat) (h : n < 10) :
    Nat.toDigits 10 n = [Nat.digitChar n] := by
  have h0 : n / 10 = 0 := by omega
  have h1 : n % 10 = n := by omega
  unfold Nat.toDigits
  unfold Nat.toDigitsCore
  simp [h0, h1]

lemma toDigits_step (n : Nat) (h : 10 ≤ n) :
    Nat.toDigits 10 n =
      Nat.toDigits 10 (n / 10) ++ [Nat.digitChar (n % 10)] := by
  have hne : ¬ n / 10 = 0 := by omega
  unfold Nat.toDigits
  conv_lhs => unfold Nat.toDigitsCore
  simp only [hne, if_false]
  rw [toDigitsCore_append 10 n (n / 10) _]
  congr 1
  exact toDigitsCore_fuel n (n / 10 + 1) (n / 10) (by omega) (by omega)

lemma toDigits_last_two (y : Nat) (h : 10 ≤ y) :
    ∃ pre : List Char, Nat.toDigits 10 y =
      pre ++ [Nat.digitChar (y / 10 % 10), Nat.digitChar (y % 10)] := by
  rw [toDigits_step y h]
  by_cases h100 : y < 100
  · refine ⟨[], ?_⟩
    have hq : y / 10 < 10 := by omega
    have hqq : y / 10 % 10 = y / 10 := by omega
    rw [toDigits_lt10 _ hq, hqq]
    simp
  · have h10 : 10 ≤ y / 10 := by omega
    rw [toDigits_step _ h10]
    refine ⟨Nat.toDigits 10 (y / 10 / 10), ?_⟩
    simp

lemma toString_nat_eq (n : Nat) :
    toString n = String.mk (Nat.toDigits 10 n) := rfl

lemma sliceLast2_toString_eq_twoDigit (y : Nat) (h : 10 ≤ y) :
    sliceLast2 (toString y) = twoDigit (y % 100) := by
  obtain ⟨pre, hpre⟩ := toDigits_last_two y h
  rw [toString_nat_eq, hpre]
  unfold sliceLast2 twoDigit
  rw [String.drop_eq]
  have hlen : (String.mk (pre ++
      [Nat.digitChar (y / 10 % 10), Nat.digitChar (y % 10)])).length
      = pre.length + 2 := by
    simp [String.length]
  rw [hlen]
  have h2 : pre.length + 2 - 2 = pre.length := by omega
  have hd1 : y % 100 / 10 % 10 = y / 10 % 10 := by omega
  have hd2 : y % 100 % 10 = y % 10 := by omega
  rw [h2, hd1, hd2]
  congr 1
  show (pre ++
    [Nat.digitChar (y / 10 % 10), Nat.digitChar (y % 10)]).drop pre.length = _
  simp

/-- C4: for every selected calendar date (day below 100 — days of month
are at most 31 —, month index below 99, year of at least two decimal
digits) the historical query path component is the two-digit zero-padded
day, the two-digit zero-padded month, and the last two digits of the
year, joined by underscores. -/
theorem date_formatted_DD_MM_YY (d : SimpleDate)
    (hday : d.getDate < 100) (hmon : d.getMonth + 1 < 100)
    (hyear : 10 ≤ d.getFullYear) :
    formattedDate d =
      twoDigit d.getDate ++ "_" ++ twoDigit (d.getMonth + 1) ++ "_" ++
        twoDigit (d.getFullYear % 100) := by
  unfold formattedDate
  rw [padStart2_toString_eq_twoDigit d.getDate hday,
    padStart2_toString_eq_twoDigit (d.getMonth + 1) hmon,
    sliceLast2_toString_eq_twoDigit d.getFullYear hyear]

/-- C4 witness: the spec's concrete example — the date 2024-03-07
(`getDate() = 7`, `getMonth() = 2`, `getFullYear() = 2024`) formats to
`"07_03_24"`. -/
theorem date_formatted_DD_MM_YY_witness :
    formattedDate ⟨7, 2, 2024⟩ = "07_03_24" := by
  have h := date_formatted_DD_MM_YY ⟨7, 2, 2024⟩ (by decide) (by decide)
    (by decide)
  exact h.trans (by decide)

/-- C7 witness: idempotence at a concrete two-element series under the
string-length timestamp parser. -/
theorem sortedData_idempotent_witness :
    sortedData (fun t => (t.length : Int))
        (sortedData (fun t => (t.length : Int))
          [⟨"2024-03-07T10:00:00", 21, 55⟩, ⟨"t2", 22, 56⟩]) =
      sortedData (fun t => (t.length : Int))
        [⟨"2024-03-07T10:00:00", 21, 55⟩, ⟨"t2", 22, 56⟩] :=
  sortedData_idempotent (fun t => (t.length : Int))
    [⟨"2024-03-07T10:00:00", 21, 55⟩, ⟨"t2", 22, 56⟩]
    (List.cons_ne_nil _ _)

end IptmMqtt
